import Mathlib

/-!
Shallow embedding of `src/bot.py` (CopyCaprice): a single-pass pipeline that
gates on regular trading hours, fetches a timeline of posts, skips photo posts,
classifies post text via an external generative service, rewrites qualifying
posts, publishes them, and persists a dedupe set of processed post ids.

External services (the timeline API, the generative-text model, the publish
API) are modelled as oracles: deterministic functions from the request text to
the response, with `Except Unit String` capturing "response or raised
exception" for the generative calls and a status code for the publish call.
Python `dict` fields that may be absent are modelled as `Option`; Python
truthiness of `None` / `""` / empty dict is modelled explicitly where the
source branches on it.
-/

/-- A wall-clock instant already evaluated in the US/Eastern zone, as the
fields `datetime.now(eastern)` exposes: `weekday()` (Monday = 0 … Sunday = 6)
and the time-of-day components.  `is_rth` compares `now` against
`now.replace(hour=9, minute=30, second=0, microsecond=0)` and
`now.replace(hour=16, minute=0, second=0, microsecond=0)`; both replacements
keep the date and offset, so the datetime comparison is the lexicographic
comparison of the (hour, minute, second, microsecond) tuples. -/
structure ETTime where
  weekday : Nat
  hour : Nat
  minute : Nat
  second : Nat
  microsecond : Nat
deriving DecidableEq, Repr

/-- Lexicographic order on time-of-day components: how Python compares two
aware datetimes sharing the same date and UTC offset. -/
def todLe (a b : ETTime) : Bool :=
  if a.hour ≠ b.hour then decide (a.hour < b.hour)
  else if a.minute ≠ b.minute then decide (a.minute < b.minute)
  else if a.second ≠ b.second then decide (a.second < b.second)
  else decide (a.microsecond ≤ b.microsecond)

/-- Time of day in microseconds since midnight — an independent arithmetic
yardstick used only in theorem statements, never by the embedded code. -/
def todUsec (t : ETTime) : Nat :=
  t.hour * 3600000000 + t.minute * 60000000 + t.second * 1000000 + t.microsecond

/-- `is_rth` from `src/bot.py`: False on weekday ≥ 5 (Saturday/Sunday);
otherwise True iff `open_time <= now <= close_time` with the 09:30:00.000000
and 16:00:00.000000 replacements. -/
def is_rth (now : ETTime) : Bool :=
  if 5 ≤ now.weekday then false
  else
    let open_time : ETTime := ⟨now.weekday, 9, 30, 0, 0⟩
    let close_time : ETTime := ⟨now.weekday, 16, 0, 0, 0⟩
    todLe open_time now && todLe now close_time

/-- `tweet["attachments"]` value: a dict that may or may not carry a
`media_keys` list. -/
structure Attachments where
  media_keys : Option (List String)
deriving DecidableEq, Repr

/-- One element of the response `data` array: `id` and `text` are always read
(`t["id"]`, `t["text"]`); `attachments` may be absent. -/
structure Tweet where
  id : String
  text : String
  attachments : Option Attachments
deriving DecidableEq, Repr

/-- One element of `includes["media"]`: `m["media_key"]` is indexed directly
(always present), `m.get("type")` may be absent. -/
structure MediaItem where
  media_key : String
  type : Option String
deriving DecidableEq, Repr

/-- The `includes` dict of the timeline response; the `media` key may be
absent (`"media" not in includes`). -/
structure Includes where
  media : Option (List MediaItem)
deriving DecidableEq, Repr

/-- The JSON object returned by the timeline API on status 200.  `data` and
`includes` may be absent (`data.get("data", [])`, `data.get("includes", {})`);
`hasOtherKeys` records whether the object carries any further keys (e.g.
`meta`), which matters only for Python truthiness of the whole dict. -/
structure TimelineBody where
  data : Option (List Tweet)
  includes : Option Includes
  hasOtherKeys : Bool
deriving DecidableEq, Repr

/-- Python truthiness of the timeline JSON dict: non-empty iff it has at least
one key. -/
def truthyBody (b : TimelineBody) : Bool :=
  b.data.isSome || b.includes.isSome || b.hasOtherKeys

/-- Python truthiness of the `rewrite_tweet` result (`None` or a `str`):
`None` and `""` are falsy, every other string truthy. -/
def truthyOptStr : Option String → Bool
  | none => false
  | some s => !(s == "")

/-- The three external collaborators as deterministic oracles keyed by the
text the source sends them: the generative model's classify and rewrite
responses (`Except.error` = the call raised), and the publish endpoint's
status code. -/
structure Services where
  classifyResp : String → Except Unit String
  rewriteResp : String → Except Unit String
  publishStatus : String → Nat

/-- `load_processed` from `src/bot.py`: empty set when the file does not
exist, else `set(json.load(f))` of the stored JSON array of id strings. -/
def load_processed : Option (List String) → Finset String
  | none => ∅
  | some l => l.toFinset

/-- `save_processed` from `src/bot.py`: `json.dump(list(processed), f)` —
writes the set out as a JSON array, in an order that carries no meaning; the
model picks the sorted enumeration. -/
def save_processed (processed : Finset String) : List String :=
  processed.sort (· ≤ ·)

/-- `has_images` from `src/bot.py`: absent `attachments`, absent `media_keys`
or absent `includes["media"]` give False; otherwise True iff some media item
has its `media_key` among the tweet's keys and `type` equal to "photo". -/
def has_images (tweet : Tweet) (includes : Includes) : Bool :=
  match tweet.attachments with
  | none => false
  | some att =>
    match att.media_keys with
    | none => false
    | some media_keys =>
      match includes.media with
      | none => false
      | some ms =>
        ms.any (fun m => media_keys.contains m.media_key && m.type == some "photo")

/-- Python `str.lower()` (character-wise lower-casing). -/
def pyLower (s : String) : String := ⟨s.data.map Char.toLower⟩

/-- Python `str.strip()`: remove leading and trailing whitespace. -/
def pyStrip (s : String) : String :=
  ⟨((s.data.dropWhile Char.isWhitespace).reverse.dropWhile Char.isWhitespace).reverse⟩

/-- Python `s.startswith(pre)`. -/
def pyStartsWith (s pre : String) : Bool := s.data.take pre.data.length == pre.data

/-- `classify_trade` from `src/bot.py`: on a successful model call, strip and
lower-case the response (`result.text.strip().lower()`) and answer "trade" iff
it starts with "trade"; on any exception answer "not trade". -/
def classify_trade (svc : Services) (text : String) : String :=
  match svc.classifyResp text with
  | Except.ok result =>
    if pyStartsWith (pyLower (pyStrip result)) "trade" then "trade" else "not trade"
  | Except.error _ => "not trade"

/-- `rewrite_tweet` from `src/bot.py`: the stripped model response
(`result.text.strip()`) on success, `None` on any exception. -/
def rewrite_tweet (svc : Services) (text : String) : Option String :=
  match svc.rewriteResp text with
  | Except.ok result => some (pyStrip result)
  | Except.error _ => none

/-- `post_tweet` from `src/bot.py`: True iff the publish endpoint answers
status 201. -/
def post_tweet (svc : Services) (text : String) : Bool :=
  svc.publishStatus text == 201

/-- Observable calls the loop body makes for a post, tagged with the post id:
the `has_images` check, the classify call, the rewrite call, and the publish
call (with the text sent and the boolean `post_tweet` outcome). -/
inductive Event where
  | mediaCheck (tid : String)
  | classifyCall (tid : String)
  | rewriteCall (tid : String)
  | publishCall (tid : String) (text : String) (ok : Bool)
deriving DecidableEq, Repr

/-- The post id an event refers to. -/
def Event.postId : Event → String
  | Event.mediaCheck tid => tid
  | Event.classifyCall tid => tid
  | Event.rewriteCall tid => tid
  | Event.publishCall tid _ _ => tid

/-- Whether an event is the `has_images` check. -/
def Event.isMediaCheck : Event → Bool
  | Event.mediaCheck _ => true
  | _ => false

/-- Whether an event is a publish call. -/
def Event.isPublish : Event → Bool
  | Event.publishCall _ _ _ => true
  | _ => false

/-- Whether an event is the `has_images` check for the given post id. -/
def Event.isMediaCheckFor (tid : String) : Event → Bool
  | Event.mediaCheck i => i == tid
  | _ => false

/-- In-memory state of the per-post loop in `run`: the mutable `processed`
set plus the trace of external calls made so far. -/
structure LoopState where
  processed : Finset String
  events : List Event
deriving DecidableEq

/-- One iteration of the `for t in tweets` loop in `run`, mirroring the
source branch for branch: skip if already processed; else mark and move on
after the image check; else after a non-"trade" classification; else after a
falsy rewrite; else publish (marking regardless of the publish outcome). -/
def processOne (svc : Services) (includes : Includes) (st : LoopState) (t : Tweet) : LoopState :=
  if t.id ∈ st.processed then st
  else if has_images t includes then
    ⟨insert t.id st.processed, st.events ++ [Event.mediaCheck t.id]⟩
  else if classify_trade svc t.text ≠ "trade" then
    ⟨insert t.id st.processed, st.events ++ [Event.mediaCheck t.id, Event.classifyCall t.id]⟩
  else if ¬ (truthyOptStr (rewrite_tweet svc t.text) = true) then
    ⟨insert t.id st.processed,
      st.events ++ [Event.mediaCheck t.id, Event.classifyCall t.id, Event.rewriteCall t.id]⟩
  else
    ⟨insert t.id st.processed,
      st.events ++ [Event.mediaCheck t.id, Event.classifyCall t.id, Event.rewriteCall t.id,
        Event.publishCall t.id ((rewrite_tweet svc t.text).getD "")
          (post_tweet svc ((rewrite_tweet svc t.text).getD ""))]⟩

/-- The whole `for t in tweets` loop. -/
def runLoop (svc : Services) (includes : Includes) (st : LoopState) (tweets : List Tweet) : LoopState :=
  tweets.foldl (processOne svc includes) st

/-- Outcome of one `run` invocation: the set handed to `save_processed`
(`none` when `run` returned before reaching the save line) and the trace of
per-post external calls. -/
structure RunResult where
  saved : Option (Finset String)
  events : List Event
deriving DecidableEq

/-- `run` from `src/bot.py`.  `gateOpen` is the `is_rth()` result for the
invocation instant, `file` the current content of `processed_tweets.json`
(`none` = the file does not exist), `fetched` the `get_latest_tweets()` result
(`none` = non-200 response).  `if not data` is Python truthiness: it aborts
both on `None` and on an empty response dict. -/
def run (svc : Services) (gateOpen : Bool) (file : Option (List String))
    (fetched : Option TimelineBody) : RunResult :=
  if ¬ (gateOpen = true) then ⟨none, []⟩
  else
    let processed := load_processed file
    match fetched with
    | none => ⟨none, []⟩
    | some body =>
      if ¬ (truthyBody body = true) then ⟨none, []⟩
      else
        let tweets := body.data.getD []
        let includes := body.includes.getD ⟨none⟩
        let final := runLoop svc includes ⟨processed, []⟩ tweets
        ⟨some final.processed, final.events⟩

/-! ### Concrete fixtures used to instantiate the theorems -/

/-- A service environment in which every external call fails. -/
def svcNone : Services := ⟨fun _ => Except.error (), fun _ => Except.error (), fun _ => 0⟩

/-- A service environment that classifies everything as a trade and whose
rewrite call returns whitespace only (stripping to the empty string). -/
def svcEmptyRw : Services := ⟨fun _ => Except.ok "trade", fun _ => Except.ok " ", fun _ => 201⟩

/-- A post with no attachments. -/
def tweetOne : Tweet := ⟨"1", "hi", none⟩

/-- A post whose attachment key resolves to a photo in `incPhoto`. -/
def photoTweet : Tweet := ⟨"2", "look", some ⟨some ["k1"]⟩⟩

/-- An includes payload mapping key "k1" to a photo item. -/
def incPhoto : Includes := ⟨some [⟨"k1", some "photo"⟩]⟩

/-- A timeline body with the single post `tweetOne` and no includes. -/
def bodyOne : TimelineBody := ⟨some [tweetOne], none, false⟩

/-- The empty JSON object as a timeline body: status 200, but falsy in
Python, so `run` aborts on it. -/
def emptyBody : TimelineBody := ⟨none, none, false⟩

/-! ### Helper lemmas -/

theorem todLe_iff (a b : ETTime) (ham : a.minute < 60) (has : a.second < 60)
    (hau : a.microsecond < 1000000) (hbm : b.minute < 60) (hbs : b.second < 60)
    (hbu : b.microsecond < 1000000) :
    todLe a b = true ↔ todUsec a ≤ todUsec b := by
  unfold todLe todUsec
  split_ifs <;> simp only [decide_eq_true_eq] <;> omega

theorem isMediaCheckFor_eq_true (tid : String) (e : Event) :
    Event.isMediaCheckFor tid e = true ↔ e = Event.mediaCheck tid := by
  cases e <;> simp [Event.isMediaCheckFor]

theorem processOne_processed (svc : Services) (inc : Includes) (st : LoopState) (t : Tweet) :
    (processOne svc inc st t).processed = insert t.id st.processed := by
  unfold processOne
  split_ifs with h1 h2 h3 h4
  · exact (Finset.insert_eq_self.mpr h1).symm
  all_goals rfl

theorem processOne_of_mem (svc : Services) (inc : Includes) (st : LoopState) (t : Tweet)
    (h : t.id ∈ st.processed) : processOne svc inc st t = st := by
  unfold processOne
  rw [if_pos h]

theorem processOne_events (svc : Services) (inc : Includes) (st : LoopState) (t : Tweet) :
    ∃ l, (processOne svc inc st t).events = st.events ++ l ∧
      (∀ e ∈ l, e.postId = t.id) ∧
      (t.id ∈ st.processed → l = []) ∧
      (∀ tid, l.countP (Event.isMediaCheckFor tid) ≤ 1) ∧
      (t.id ∉ st.processed → has_images t inc = true → l = [Event.mediaCheck t.id]) := by
  unfold processOne
  split_ifs with h1 h2 h3 h4
  · refine ⟨[], by simp, by simp, fun h => rfl, fun tid => by simp, fun h _ => absurd h1 h⟩
  · refine ⟨[Event.mediaCheck t.id], rfl, ?_, fun h => absurd h h1, ?_, fun _ _ => rfl⟩
    · simp [Event.postId]
    · intro tid
      rcases Bool.eq_false_or_eq_true (t.id == tid) with h | h <;>
        simp [List.countP_cons, List.countP_nil, Event.isMediaCheckFor, h]
  · refine ⟨[Event.mediaCheck t.id, Event.classifyCall t.id], rfl, ?_,
      fun h => absurd h h1, ?_, fun _ h => absurd h h2⟩
    · simp [Event.postId]
    · intro tid
      rcases Bool.eq_false_or_eq_true (t.id == tid) with h | h <;>
        simp [List.countP_cons, List.countP_nil, Event.isMediaCheckFor, h]
  · refine ⟨[Event.mediaCheck t.id, Event.classifyCall t.id, Event.rewriteCall t.id,
      Event.publishCall t.id ((rewrite_tweet svc t.text).getD "")
        (post_tweet svc ((rewrite_tweet svc t.text).getD ""))], rfl, ?_,
      fun h => absurd h h1, ?_, fun _ h => absurd h h2⟩
    · simp [Event.postId]
    · intro tid
      rcases Bool.eq_false_or_eq_true (t.id == tid) with h | h <;>
        simp [List.countP_cons, List.countP_nil, Event.isMediaCheckFor, h]
  · refine ⟨[Event.mediaCheck t.id, Event.classifyCall t.id, Event.rewriteCall t.id], rfl, ?_,
      fun h => absurd h h1, ?_, fun _ h => absurd h h2⟩
    · simp [Event.postId]
    · intro tid
      rcases Bool.eq_false_or_eq_true (t.id == tid) with h | h <;>
        simp [List.countP_cons, List.countP_nil, Event.isMediaCheckFor, h]

theorem runLoop_nil (svc : Services) (inc : Includes) (st : LoopState) :
    runLoop svc inc st [] = st := rfl

theorem runLoop_cons (svc : Services) (inc : Includes) (st : LoopState) (t : Tweet)
    (ts : List Tweet) :
    runLoop svc inc st (t :: ts) = runLoop svc inc (processOne svc inc st t) ts := rfl

theorem runLoop_processed (svc : Services) (inc : Includes) :
    ∀ (ts : List Tweet) (st : LoopState),
      (runLoop svc inc st ts).processed = st.processed ∪ (ts.map Tweet.id).toFinset := by
  intro ts
  induction ts with
  | nil => intro st; simp [runLoop]
  | cons t ts ih =>
    intro st
    rw [runLoop_cons, ih, processOne_processed]
    simp [Finset.insert_union, Finset.union_insert]

theorem runLoop_mem_mono (svc : Services) (inc : Includes) (ts : List Tweet) (st : LoopState)
    (x : String) (h : x ∈ st.processed) : x ∈ (runLoop svc inc st ts).processed := by
  rw [runLoop_processed]
  exact Finset.mem_union_left _ h

theorem runLoop_of_all_mem (svc : Services) (inc : Includes) :
    ∀ (ts : List Tweet) (st : LoopState),
      (∀ t ∈ ts, t.id ∈ st.processed) → runLoop svc inc st ts = st := by
  intro ts
  induction ts with
  | nil => intro st _; rfl
  | cons t ts ih =>
    intro st h
    rw [runLoop_cons, processOne_of_mem svc inc st t (h t (List.mem_cons_self t ts))]
    exact ih st (fun u hu => h u (List.mem_cons_of_mem t hu))

theorem runLoop_filter_postId_of_mem (svc : Services) (inc : Includes) (tid : String) :
    ∀ (ts : List Tweet) (st : LoopState), tid ∈ st.processed →
      (runLoop svc inc st ts).events.filter (fun e => e.postId == tid)
        = st.events.filter (fun e => e.postId == tid) := by
  intro ts
  induction ts with
  | nil => intro st _; rfl
  | cons t ts ih =>
    intro st hmem
    rw [runLoop_cons]
    obtain ⟨l, hev, hpost, hskip, -, -⟩ := processOne_events svc inc st t
    have hmem2 : tid ∈ (processOne svc inc st t).processed := by
      rw [processOne_processed]
      exact Finset.mem_insert_of_mem hmem
    rw [ih _ hmem2, hev, List.filter_append]
    have hl : l.filter (fun e => e.postId == tid) = [] := by
      by_cases hc : t.id ∈ st.processed
      · rw [hskip hc]; rfl
      · refine List.filter_eq_nil_iff.mpr (fun e he => ?_)
        have hne : t.id ≠ tid := fun hEq => hc (hEq ▸ hmem)
        simp [hpost e he, hne]
    rw [hl, List.append_nil]

theorem runLoop_countP_mediaCheck (svc : Services) (inc : Includes) (tid : String) :
    ∀ (ts : List Tweet) (st : LoopState),
      (tid ∈ st.processed →
        (runLoop svc inc st ts).events.countP (Event.isMediaCheckFor tid)
          = st.events.countP (Event.isMediaCheckFor tid)) ∧
      ((runLoop svc inc st ts).events.countP (Event.isMediaCheckFor tid)
          ≤ st.events.countP (Event.isMediaCheckFor tid) + 1) := by
  intro ts
  induction ts with
  | nil => intro st; exact ⟨fun _ => rfl, Nat.le_succ _⟩
  | cons t ts ih =>
    intro st
    obtain ⟨l, hev, hpost, hskip, hcount, -⟩ := processOne_events svc inc st t
    have hstep : (processOne svc inc st t).events.countP (Event.isMediaCheckFor tid)
        = st.events.countP (Event.isMediaCheckFor tid)
          + l.countP (Event.isMediaCheckFor tid) := by
      rw [hev, List.countP_append]
    have hzero : t.id ≠ tid → l.countP (Event.isMediaCheckFor tid) = 0 := by
      intro hne
      refine List.countP_eq_zero.mpr (fun e he hc => ?_)
      have h1 := (isMediaCheckFor_eq_true tid e).mp hc
      have h2 := hpost e he
      rw [h1] at h2
      simp only [Event.postId] at h2
      exact hne h2.symm
    constructor
    · intro hmem
      have hmem2 : tid ∈ (processOne svc inc st t).processed := by
        rw [processOne_processed]
        exact Finset.mem_insert_of_mem hmem
      rw [runLoop_cons, (ih (processOne svc inc st t)).1 hmem2, hstep]
      by_cases hc : t.id ∈ st.processed
      · rw [hskip hc]
        rfl
      · rw [hzero (fun hEq => hc (hEq ▸ hmem))]
        omega
    · rw [runLoop_cons]
      by_cases hmem : tid ∈ st.processed
      · have hmem2 : tid ∈ (processOne svc inc st t).processed := by
          rw [processOne_processed]
          exact Finset.mem_insert_of_mem hmem
        rw [(ih (processOne svc inc st t)).1 hmem2, hstep]
        by_cases hc : t.id ∈ st.processed
        · rw [hskip hc, List.countP_nil]
          omega
        · rw [hzero (fun hEq => hc (hEq ▸ hmem))]
          omega
      · by_cases hid : t.id = tid
        · have hmem2 : tid ∈ (processOne svc inc st t).processed := by
            rw [processOne_processed, ← hid]
            exact Finset.mem_insert_self _ _
          rw [(ih (processOne svc inc st t)).1 hmem2, hstep]
          have := hcount tid
          omega
        · have h2 := (ih (processOne svc inc st t)).2
          rw [hstep, hzero hid] at h2
          omega

theorem runLoop_photo_filter (svc : Services) (inc : Includes) (tid : String) :
    ∀ (ts : List Tweet), (∀ u ∈ ts, u.id = tid → has_images u inc = true) →
      ∀ st : LoopState,
        (runLoop svc inc st ts).events.filter (fun e => e.postId == tid && !e.isMediaCheck)
          = st.events.filter (fun e => e.postId == tid && !e.isMediaCheck) := by
  intro ts
  induction ts with
  | nil => intro _ st; rfl
  | cons t ts ih =>
    intro hph st
    rw [runLoop_cons, ih (fun u hu => hph u (List.mem_cons_of_mem t hu))]
    obtain ⟨l, hev, hpost, hskip, -, hphoto⟩ := processOne_events svc inc st t
    rw [hev, List.filter_append]
    suffices hl : l.filter (fun e => e.postId == tid && !e.isMediaCheck) = [] by
      rw [hl, List.append_nil]
    by_cases hc : t.id ∈ st.processed
    · rw [hskip hc]; rfl
    · by_cases hid : t.id = tid
      · rw [hphoto hc (hph t (List.mem_cons_self t ts) hid)]
        simp [Event.isMediaCheck, Event.postId]
      · refine List.filter_eq_nil_iff.mpr (fun e he => ?_)
        simp [hpost e he, hid]

theorem load_save_round (s : Finset String) :
    load_processed (some (save_processed s)) = s := by
  ext a
  simp [load_processed, save_processed, List.mem_toFinset, Finset.mem_sort]

theorem run_open_some (svc : Services) (file : Option (List String)) (body : TimelineBody)
    (hb : truthyBody body = true) :
    run svc true file (some body) =
      ⟨some (runLoop svc (body.includes.getD ⟨none⟩)
          ⟨load_processed file, []⟩ (body.data.getD [])).processed,
        (runLoop svc (body.includes.getD ⟨none⟩)
          ⟨load_processed file, []⟩ (body.data.getD [])).events⟩ := by
  simp [run, hb]

/-! ### Claim theorems -/

/-- C4 (gate boundary): `is_rth` is false whenever the Eastern-zone weekday is
Saturday or Sunday (`weekday ≥ 5`), and on a weekday it is true iff the time
of day, measured in microseconds since midnight, lies in the inclusive window
[09:30:00, 16:00:00]; in particular Monday 09:29:59 is closed, 09:30:00 open,
16:00:00 open, and 16:00:01 closed. -/
theorem c4_gate_boundary (t : ETTime) (hm : t.minute < 60) (hs : t.second < 60)
    (hu : t.microsecond < 1000000) :
    (5 ≤ t.weekday → is_rth t = false) ∧
    (t.weekday < 5 →
      (is_rth t = true ↔ 34200000000 ≤ todUsec t ∧ todUsec t ≤ 57600000000)) ∧
    is_rth ⟨0, 9, 29, 59, 0⟩ = false ∧ is_rth ⟨0, 9, 30, 0, 0⟩ = true ∧
    is_rth ⟨0, 16, 0, 0, 0⟩ = true ∧ is_rth ⟨0, 16, 0, 1, 0⟩ = false := by
  refine ⟨?_, ?_, by decide, by decide, by decide, by decide⟩
  · intro h
    unfold is_rth
    rw [if_pos h]
  · intro h
    have hw : ¬ (5 ≤ t.weekday) := by omega
    simp only [is_rth, hw, if_false, Bool.and_eq_true]
    rw [todLe_iff _ _ (show (30 : Nat) < 60 by norm_num) (show (0 : Nat) < 60 by norm_num)
        (show (0 : Nat) < 1000000 by norm_num) hm hs hu,
      todLe_iff _ _ hm hs hu (show (0 : Nat) < 60 by norm_num) (show (0 : Nat) < 60 by norm_num)
        (show (0 : Nat) < 1000000 by norm_num)]
    unfold todUsec
    norm_num

/-- Witness for C4 at a concrete weekday instant inside the window. -/
theorem c4_witness : (0 : Nat) < 5 ∧ is_rth ⟨0, 10, 0, 0, 0⟩ = true :=
  ⟨by decide,
    ((c4_gate_boundary ⟨0, 10, 0, 0, 0⟩ (by decide) (by decide) (by decide)).2.1
      (by decide)).mpr (by decide)⟩

/-- C5 (fail-closed classification): `classify_trade` answers "trade" iff the
service call succeeded and the stripped, lower-cased response starts with
"trade"; the only other answer is "not trade", and any raised exception gives
"not trade". -/
theorem c5_fail_closed (svc : Services) (text : String) :
    (classify_trade svc text = "trade" ↔
      ∃ r, svc.classifyResp text = Except.ok r ∧
        pyStartsWith (pyLower (pyStrip r)) "trade" = true) ∧
    (classify_trade svc text = "trade" ∨ classify_trade svc text = "not trade") ∧
    (∀ e : Unit, svc.classifyResp text = Except.error e →
      classify_trade svc text = "not trade") := by
  cases h : svc.classifyResp text with
  | ok r =>
    have hred : classify_trade svc text =
        (if pyStartsWith (pyLower (pyStrip r)) "trade" then "trade" else "not trade") := by
      unfold classify_trade
      rw [h]
    refine ⟨⟨?_, ?_⟩, ?_, ?_⟩
    · intro hq
      refine ⟨r, rfl, ?_⟩
      by_contra hb
      rw [hred, if_neg hb] at hq
      exact absurd hq (by decide)
    · rintro ⟨r2, hr2, hb⟩
      obtain rfl : r = r2 := by injection hr2
      rw [hred, if_pos hb]
    · by_cases hb : pyStartsWith (pyLower (pyStrip r)) "trade" = true
      · left; rw [hred, if_pos hb]
      · right; rw [hred, if_neg hb]
    · intro e he
      exact Except.noConfusion he
  | error e =>
    have hred : classify_trade svc text = "not trade" := by
      unfold classify_trade
      rw [h]
    refine ⟨⟨?_, ?_⟩, Or.inr hred, fun e2 _ => hred⟩
    · intro hq
      rw [hred] at hq
      exact absurd hq (by decide)
    · rintro ⟨r2, hr2, hb⟩
      exact Except.noConfusion hr2

/-- Witness for C5: a service whose classify call raises yields "not trade". -/
theorem c5_witness : classify_trade svcNone "x" = "not trade" :=
  (c5_fail_closed svcNone "x").2.2 () rfl

/-- C7 (media filter truth condition): `has_images` is true iff the post has
an `attachments` field with a `media_keys` list and the includes payload has a
`media` table containing an item whose key occurs in that list and whose type
is exactly "photo"; a missing `attachments`, missing `media_keys`, or missing
`media` table gives false. -/
theorem c7_media_filter (t : Tweet) (inc : Includes) :
    (has_images t inc = true ↔
      ∃ att, t.attachments = some att ∧ ∃ keys, att.media_keys = some keys ∧
        ∃ ms, inc.media = some ms ∧
          ∃ m ∈ ms, m.media_key ∈ keys ∧ m.type = some "photo") ∧
    (t.attachments = none → has_images t inc = false) ∧
    (∀ att, t.attachments = some att → att.media_keys = none →
      has_images t inc = false) ∧
    (inc.media = none → has_images t inc = false) := by
  refine ⟨?_, ?_, ?_, ?_⟩
  · cases hatt : t.attachments with
    | none => simp [has_images, hatt]
    | some att =>
      cases hkeys : att.media_keys with
      | none => simp [has_images, hatt, hkeys]
      | some keys =>
        cases hmed : inc.media with
        | none => simp [has_images, hatt, hkeys, hmed]
        | some ms =>
          simp only [has_images, hatt, hkeys, hmed, List.any_eq_true, Bool.and_eq_true]
          constructor
          · rintro ⟨m, hm, hc, hty⟩
            refine ⟨att, rfl, keys, hkeys, ms, rfl, m, hm, ?_, ?_⟩
            · simpa using hc
            · simpa using hty
          · rintro ⟨att2, ha2, keys2, hk2, ms2, hm2, m, hm, hmk, hty⟩
            injection ha2 with ha2
            subst ha2
            rw [hkeys] at hk2
            injection hk2 with hk2
            subst hk2
            injection hm2 with hm2
            subst hm2
            refine ⟨m, hm, ?_, ?_⟩
            · simpa using hmk
            · simpa using hty
  · intro h
    simp [has_images, h]
  · intro att h1 h2
    simp [has_images, h1, h2]
  · intro h
    cases hatt : t.attachments with
    | none => simp [has_images, hatt]
    | some att =>
      cases hkeys : att.media_keys with
      | none => simp [has_images, hatt, hkeys]
      | some keys => simp [has_images, hatt, hkeys, h]

/-- Witness for C7: a post with a photo attachment is detected, one with no
attachments is not. -/
theorem c7_witness : has_images tweetOne incPhoto = false :=
  (c7_media_filter tweetOne incPhoto).2.1 rfl

/-- C9 (dedupe store round trip): loading with no prior state file gives the
empty set; saving any set and loading it back returns exactly that set; a
duplicated identifier in the stored array collapses into the set. -/
theorem c9_round_trip :
    load_processed none = (∅ : Finset String) ∧
    (∀ s : Finset String, load_processed (some (save_processed s)) = s) ∧
    (∀ (l : List String) (x : String),
      load_processed (some (x :: x :: l)) = load_processed (some (x :: l))) := by
  refine ⟨rfl, load_save_round, ?_⟩
  intro l x
  simp [load_processed]

/-- C3 counterexample: with the gate open and the fetch *succeeding* (a
non-`none` result, i.e. a 200 response) whose JSON body is the empty object,
`run` returns before the save line (`if not data: return` — an empty Python
dict is falsy), so save is not called even though the fetch did not fail.
This refutes "on every other run, save is called exactly once". -/
theorem c3_counterexample :
    (some emptyBody ≠ (none : Option TimelineBody)) ∧
    (run svcNone true none (some emptyBody)).saved = none := by
  exact ⟨by simp, rfl⟩

/-- C3 amended: save is reached iff the gate is open AND the fetch returned a
success AND the fetched JSON body is truthy (non-empty); on a closed gate, a
failed fetch, or an empty body the run ends with no save, leaving the
persisted set untouched; otherwise save is called exactly once at run end. -/
theorem c3_abort_atomicity (svc : Services) (gateOpen : Bool) (file : Option (List String))
    (fetched : Option TimelineBody) :
    ((run svc gateOpen file fetched).saved).isSome =
      (gateOpen && (match fetched with
        | none => false
        | some body => truthyBody body)) := by
  cases gateOpen with
  | false => rfl
  | true =>
    cases fetched with
    | none => rfl
    | some body =>
      by_cases hb : truthyBody body = true
      · rw [run_open_some svc file body hb]
        simp [hb]
      · unfold run
        rw [if_neg (by simp)]
        have hred : (match some body with
            | none => (⟨none, []⟩ : RunResult)
            | some body =>
              if ¬ (truthyBody body = true) then ⟨none, []⟩
              else
                ⟨some (runLoop svc (body.includes.getD ⟨none⟩)
                    ⟨load_processed file, []⟩ (body.data.getD [])).processed,
                  (runLoop svc (body.includes.getD ⟨none⟩)
                    ⟨load_processed file, []⟩ (body.data.getD [])).events⟩) =
            (⟨none, []⟩ : RunResult) := by
          rw [show (match some body with
            | none => (⟨none, []⟩ : RunResult)
            | some body =>
              if ¬ (truthyBody body = true) then ⟨none, []⟩
              else
                ⟨some (runLoop svc (body.includes.getD ⟨none⟩)
                    ⟨load_processed file, []⟩ (body.data.getD [])).processed,
                  (runLoop svc (body.includes.getD ⟨none⟩)
                    ⟨load_processed file, []⟩ (body.data.getD [])).events⟩) =
            (if ¬ (truthyBody body = true) then (⟨none, []⟩ : RunResult)
              else
                ⟨some (runLoop svc (body.includes.getD ⟨none⟩)
                    ⟨load_processed file, []⟩ (body.data.getD [])).processed,
                  (runLoop svc (body.includes.getD ⟨none⟩)
                    ⟨load_processed file, []⟩ (body.data.getD [])).events⟩) from rfl]
          rw [if_pos hb]
        rw [hred]
        simp [hb]

/-- C1 (at-most-once): a post whose id is already in the processed set is
skipped with no state change and no external call; processing never removes
ids from the set; an id present in the loaded set generates no event at all
during the run; the loaded set survives into the final set; and the
`has_images` entry check fires at most once per id per run, so no id is ever
processed by two iterations. -/
theorem c1_at_most_once (svc : Services) (inc : Includes) (st : LoopState) (t : Tweet)
    (s : Finset String) (ts : List Tweet) (tid : String) :
    (t.id ∈ st.processed → processOne svc inc st t = st) ∧
    (∀ x ∈ st.processed, x ∈ (processOne svc inc st t).processed) ∧
    (tid ∈ s →
      (runLoop svc inc ⟨s, []⟩ ts).events.filter (fun e => e.postId == tid) = []) ∧
    (s ⊆ (runLoop svc inc ⟨s, []⟩ ts).processed) ∧
    ((runLoop svc inc ⟨s, []⟩ ts).events.countP (Event.isMediaCheckFor tid) ≤ 1) := by
  refine ⟨processOne_of_mem svc inc st t, ?_, ?_, ?_, ?_⟩
  · intro x hx
    rw [processOne_processed]
    exact Finset.mem_insert_of_mem hx
  · intro hmem
    have h := runLoop_filter_postId_of_mem svc inc tid ts ⟨s, []⟩ hmem
    simpa using h
  · intro x hx
    exact runLoop_mem_mono svc inc ts ⟨s, []⟩ x hx
  · have h := (runLoop_countP_mediaCheck svc inc tid ts ⟨s, []⟩).2
    simpa using h

/-- Witness for C1: with id "1" already in the loaded set, a batch containing
that id yields an empty trace. -/
theorem c1_witness :
    ("1" ∈ ({"1"} : Finset String)) ∧
    (runLoop svcNone ⟨none⟩ ⟨{"1"}, []⟩ [tweetOne]).events.filter
      (fun e => e.postId == "1") = [] := by
  have hmem : ("1" : String) ∈ ({"1"} : Finset String) := Finset.mem_singleton_self _
  exact ⟨hmem,
    (c1_at_most_once svcNone ⟨none⟩ ⟨{"1"}, []⟩ tweetOne {"1"} [tweetOne] "1").2.2.1 hmem⟩

/-- C2 (unconditional marking): after the loop, the processed set is exactly
the starting set unioned with the ids of all iterated posts; every iteration
puts its post's id in the set regardless of which branch resolved it
(including a false `post_tweet` result); at run level, a run that reaches the
save step persists exactly the loaded set unioned with the fetched ids. -/
theorem c2_unconditional_marking (svc : Services) (inc : Includes) (s : Finset String)
    (ts : List Tweet) (file : Option (List String)) (body : TimelineBody) :
    ((runLoop svc inc ⟨s, []⟩ ts).processed = s ∪ (ts.map Tweet.id).toFinset) ∧
    (∀ (st : LoopState) (t : Tweet), t.id ∈ (processOne svc inc st t).processed) ∧
    (truthyBody body = true →
      (run svc true file (some body)).saved =
        some (load_processed file ∪ ((body.data.getD []).map Tweet.id).toFinset)) := by
  refine ⟨?_, ?_, ?_⟩
  · simpa using runLoop_processed svc inc ts ⟨s, []⟩
  · intro st t
    rw [processOne_processed]
    exact Finset.mem_insert_self _ _
  · intro hb
    rw [run_open_some svc file body hb]
    rw [show (⟨some (runLoop svc (body.includes.getD ⟨none⟩)
        ⟨load_processed file, []⟩ (body.data.getD [])).processed,
      (runLoop svc (body.includes.getD ⟨none⟩)
        ⟨load_processed file, []⟩ (body.data.getD [])).events⟩ : RunResult).saved =
      some (runLoop svc (body.includes.getD ⟨none⟩)
        ⟨load_processed file, []⟩ (body.data.getD [])).processed from rfl]
    rw [runLoop_processed]

/-- Witness for C2: one fetched post with no attachments, all services
failing, still ends up in the persisted set. -/
theorem c2_witness :
    truthyBody bodyOne = true ∧
    (run svcNone true none (some bodyOne)).saved =
      some (load_processed none ∪ ((bodyOne.data.getD []).map Tweet.id).toFinset) :=
  ⟨rfl, (c2_unconditional_marking svcNone ⟨none⟩ ∅ [] none bodyOne).2.2 rfl⟩

/-- C6 (photo skip precedence): an unprocessed post whose attachment resolves
to a photo is resolved by the image check alone — the iteration marks it
processed and emits only the media-check event (no classify, rewrite or
publish); at run level, an id all of whose posts are photo posts never
generates a classify, rewrite or publish event; and a fetched post's id ends
up marked processed. -/
theorem c6_photo_skip (svc : Services) (inc : Includes) (st : LoopState) (t : Tweet)
    (s : Finset String) (ts : List Tweet) (tid : String) :
    (t.id ∉ st.processed → has_images t inc = true →
      processOne svc inc st t =
        ⟨insert t.id st.processed, st.events ++ [Event.mediaCheck t.id]⟩) ∧
    ((∀ u ∈ ts, u.id = tid → has_images u inc = true) →
      (runLoop svc inc ⟨s, []⟩ ts).events.filter
        (fun e => e.postId == tid && !e.isMediaCheck) = []) ∧
    ((∃ u ∈ ts, u.id = tid) → tid ∈ (runLoop svc inc ⟨s, []⟩ ts).processed) := by
  refine ⟨?_, ?_, ?_⟩
  · intro h1 h2
    unfold processOne
    rw [if_neg h1, if_pos h2]
  · intro hph
    have h := runLoop_photo_filter svc inc tid ts hph ⟨s, []⟩
    simpa using h
  · rintro ⟨u, hu, rfl⟩
    rw [runLoop_processed]
    refine Finset.mem_union_right _ ?_
    rw [List.mem_toFinset]
    exact List.mem_map_of_mem Tweet.id hu

/-- Witness for C6 on a concrete photo post. -/
theorem c6_witness :
    processOne svcNone incPhoto ⟨∅, []⟩ photoTweet =
      ⟨insert "2" ∅, [Event.mediaCheck "2"]⟩ := by
  have h := (c6_photo_skip svcNone incPhoto ⟨∅, []⟩ photoTweet ∅ [] "2").1
    (by simp) (by rfl)
  simpa using h

/-- C10 (empty rewrite treated as failure): when the rewrite call succeeds
but its stripped response is empty, the iteration behaves exactly as on a
rewrite exception — the post is marked processed, the rewrite call is the
last event (publish is never called), and swapping the service for one whose
rewrite raises (same classification) produces the identical outcome, because
`if not rewritten` does not distinguish `""` from `None`. -/
theorem c10_empty_rewrite (svc svc2 : Services) (inc : Includes) (st : LoopState)
    (t : Tweet) (r : String) (hmem : t.id ∉ st.processed)
    (himg : has_images t inc = false) (hcls : classify_trade svc t.text = "trade")
    (hrw : svc.rewriteResp t.text = Except.ok r) (hempty : pyStrip r = "") :
    (processOne svc inc st t =
      ⟨insert t.id st.processed,
        st.events ++ [Event.mediaCheck t.id, Event.classifyCall t.id,
          Event.rewriteCall t.id]⟩) ∧
    (svc2.classifyResp t.text = svc.classifyResp t.text →
      svc2.rewriteResp t.text = Except.error () →
      processOne svc2 inc st t = processOne svc inc st t) := by
  have hfalsy : truthyOptStr (rewrite_tweet svc t.text) = false := by
    unfold rewrite_tweet
    rw [hrw]
    show truthyOptStr (some (pyStrip r)) = false
    rw [hempty]
    rfl
  have key : ∀ svcX : Services, classify_trade svcX t.text = "trade" →
      truthyOptStr (rewrite_tweet svcX t.text) = false →
      processOne svcX inc st t =
        ⟨insert t.id st.processed,
          st.events ++ [Event.mediaCheck t.id, Event.classifyCall t.id,
            Event.rewriteCall t.id]⟩ := by
    intro svcX hc hf
    unfold processOne
    rw [if_neg hmem, if_neg (by simp [himg]), if_neg (by simp [hc]),
      if_pos (by simp [hf])]
  refine ⟨key svc hcls hfalsy, fun hc2 hr2 => ?_⟩
  have hcls2 : classify_trade svc2 t.text = "trade" := by
    unfold classify_trade at hcls ⊢
    rw [hc2]
    exact hcls
  have hfalsy2 : truthyOptStr (rewrite_tweet svc2 t.text) = false := by
    unfold rewrite_tweet
    rw [hr2]
    rfl
  rw [key svc hcls hfalsy, key svc2 hcls2 hfalsy2]

/-- Witness for C10 on a concrete post whose rewrite response is whitespace
only. -/
theorem c10_witness :
    processOne svcEmptyRw ⟨none⟩ ⟨∅, []⟩ tweetOne =
      ⟨insert "1" ∅, [Event.mediaCheck "1", Event.classifyCall "1",
        Event.rewriteCall "1"]⟩ := by
  have h := (c10_empty_rewrite svcEmptyRw svcEmptyRw ⟨none⟩ ⟨∅, []⟩ tweetOne " "
    (by simp) rfl rfl rfl rfl).1
  simpa using h

/-- C8 (idempotence): re-running the pipeline on the same fetched batch,
starting from the set the first run persisted, makes no external call at all
(in particular zero publish calls) and persists the same set. -/
theorem c8_idempotent (svc : Services) (file : Option (List String)) (body : TimelineBody)
    (s1 : Finset String) (hb : truthyBody body = true)
    (h1 : (run svc true file (some body)).saved = some s1) :
    ((run svc true (some (save_processed s1)) (some body)).events = []) ∧
    ((run svc true (some (save_processed s1)) (some body)).events.filter
      Event.isPublish = []) ∧
    ((run svc true (some (save_processed s1)) (some body)).saved = some s1) := by
  rw [run_open_some svc file body hb] at h1
  have hs1 : (runLoop svc (body.includes.getD ⟨none⟩)
      ⟨load_processed file, []⟩ (body.data.getD [])).processed = s1 := by
    injection h1
  have hsub : ∀ t ∈ body.data.getD [], t.id ∈ s1 := by
    intro t ht
    rw [← hs1, runLoop_processed]
    refine Finset.mem_union_right _ ?_
    rw [List.mem_toFinset]
    exact List.mem_map_of_mem Tweet.id ht
  have hloop : runLoop svc (body.includes.getD ⟨none⟩) ⟨s1, []⟩ (body.data.getD [])
      = ⟨s1, []⟩ :=
    runLoop_of_all_mem svc (body.includes.getD ⟨none⟩) (body.data.getD []) ⟨s1, []⟩ hsub
  rw [run_open_some svc (some (save_processed s1)) body hb, load_save_round, hloop]
  exact ⟨rfl, rfl, rfl⟩

/-- Witness for C8: after the first run over `bodyOne` persists `{"1"}`, the
second run from that persisted set emits nothing and persists the same set. -/
theorem c8_witness :
    (run svcNone true (some (save_processed (insert "1" ∅))) (some bodyOne)).events = [] ∧
    (run svcNone true (some (save_processed (insert "1" ∅))) (some bodyOne)).saved
      = some (insert "1" ∅) := by
  have h := c8_idempotent svcNone none bodyOne (insert "1" ∅) rfl (by rfl)
  exact ⟨h.1, h.2.2⟩
